import Mathlib

/-!
Verification of the dispatch-and-aggregation pipeline of the Universal-Parser
repository (`src/app.py`, class `ExtractAgent`, together with
`src/Extractor/img_ext/img_ext.py` and the page naming of
`src/Extractor/doc_ext/convetr.py`).

The embedding is shallow: the filesystem is a pair of lists of paths, the
external collaborators (web crawler, audio transcriber, document renderer,
vision backend, text-model backend) are oracles carried in an `Env` record,
and the orchestrator functions (`run`, `processPdf`, `processImages`,
`aggImageResults`, `summarizeWithLlm`, `checkOllama`, `isUrl`) are translated
from the Python source line by line.  JSON values are modelled by the `Json`
inductive and `json.loads` by the executable parser `jsonParse` (a subset:
integers only, the usual escapes; enough for every payload exercised here).
-/

/-! ### Executable string primitives

Kernel-reducible models of the Python `str` operations the source uses
(`startswith`, `endswith`, `strip`, `lower`, `upper`); Lean's own
`String.startsWith` and friends do not reduce inside the kernel. -/

def strStarts (s pre : String) : Bool := pre.data.isPrefixOf s.data

def strEnds (s suf : String) : Bool := suf.data.isSuffixOf s.data

def pyWs (c : Char) : Bool :=
  c == ' ' || c == '\t' || c == '\n' || c == '\r' || c == Char.ofNat 11 || c == Char.ofNat 12

/-- Python `str.strip()`. -/
def pyStrip (s : String) : String :=
  String.mk (((s.data.dropWhile pyWs).reverse.dropWhile pyWs).reverse)

/-- Python `str.lower()`. -/
def lowerStr (s : String) : String := String.mk (s.data.map Char.toLower)

/-- Python `str.upper()`. -/
def upperStr (s : String) : String := String.mk (s.data.map Char.toUpper)

/-! ### Path helpers (the fragment of `pathlib` the source uses) -/

/-- Characters after the last occurrence of `c` (the whole list when `c` is
absent). -/
def afterLast (c : Char) (l : List Char) : List Char :=
  (l.reverse.takeWhile (fun x => x != c)).reverse

/-- Characters strictly before the last occurrence of `c`. -/
def beforeLast (c : Char) (l : List Char) : List Char :=
  (((l.reverse.dropWhile (fun x => x != c)).drop 1).reverse)

/-- Model of `Path(p).name`: the component after the last slash. -/
def baseName (p : String) : String := String.mk (afterLast '/' p.data)

/-- Model of `Path(p).parent` for the slash-separated paths the agent builds. -/
def parentDir (p : String) : String :=
  if p.data.contains '/' then String.mk (beforeLast '/' p.data) else "."

/-- Model of `Path(p).suffix`: the extension including the dot, or `""` when the name
has no dot in a valid position (pathlib requires `0 < i < len - 1` for the
index `i` of the last dot). -/
def pathSuffix (p : String) : String :=
  let n := (baseName p).data
  if n.contains '.' && !(afterLast '.' n).isEmpty && !(beforeLast '.' n).isEmpty then
    String.mk ('.' :: afterLast '.' n)
  else ""

/-- Model of `Path(p).stem`: the name with the suffix removed. -/
def stem (p : String) : String :=
  let n := (baseName p).data
  String.mk (n.take (n.length - (pathSuffix p).data.length))

/-! ### Lexical string order, as used by Python `sorted` on paths -/

def charsLe : List Char → List Char → Bool
  | [], _ => true
  | _ :: _, [] => false
  | a :: as, b :: bs => if a < b then true else if b < a then false else charsLe as bs

def strLe (a b : String) : Bool := charsLe a.data b.data

def insertSorted (x : String) : List String → List String
  | [] => [x]
  | y :: ys => if strLe x y then x :: y :: ys else y :: insertSorted x ys

/-- Stable sort in lexical (code-point) order: the model of Python
`sorted(...)` on a list of path strings. -/
def sortLex : List String → List String
  | [] => []
  | x :: xs => insertSorted x (sortLex xs)

/-- The numeric page index embedded in a page-image file name
(`page_012.png` has index 12). -/
def digitsToNat (l : List Char) : Nat :=
  l.foldl (fun a c => a * 10 + (c.toNat - 48)) 0

def pageIndex (name : String) : Nat := digitsToNat (name.data.filter Char.isDigit)

def isAscending : List Nat → Bool
  | [] => true
  | [_] => true
  | a :: b :: t => decide (a ≤ b) && isAscending (b :: t)

/-! ### JSON values and a parser modelling `json.loads` -/

inductive Json where
  | null
  | bool (b : Bool)
  | num (n : Int)
  | str (s : String)
  | arr (elems : List Json)
  | obj (fields : List (String × Json))
deriving Repr

def jsonWs (c : Char) : Bool := c == ' ' || c == '\t' || c == '\n' || c == '\r'

def skipWs : List Char → List Char
  | [] => []
  | c :: cs => if jsonWs c then skipWs cs else c :: cs

def parseStringBody : List Char → Option (String × List Char)
  | [] => none
  | c :: cs =>
    if c == '"' then some ("", cs)
    else if c == '\\' then
      match cs with
      | [] => none
      | e :: cs2 =>
        let dec : Option Char :=
          if e == '"' then some '"'
          else if e == '\\' then some '\\'
          else if e == '/' then some '/'
          else if e == 'n' then some '\n'
          else if e == 't' then some '\t'
          else if e == 'r' then some '\r'
          else if e == 'b' then some (Char.ofNat 8)
          else if e == 'f' then some (Char.ofNat 12)
          else none
        match dec with
        | none => none
        | some d =>
          match parseStringBody cs2 with
          | some (s, rest) => some (String.mk (d :: s.data), rest)
          | none => none
    else
      match parseStringBody cs with
      | some (s, rest) => some (String.mk (c :: s.data), rest)
      | none => none

def takeDigits : List Char → List Char × List Char
  | [] => ([], [])
  | c :: cs =>
    if c.isDigit then
      let r := takeDigits cs
      (c :: r.1, r.2)
    else ([], c :: cs)

def numCont : List Char → Bool
  | [] => false
  | c :: _ => c == '.' || c == 'e' || c == 'E'

def openBrace : Char := Char.ofNat 123

def closeBrace : Char := Char.ofNat 125

mutual

def parseVal : Nat → List Char → Option (Json × List Char)
  | 0, _ => none
  | fuel + 1, input =>
    match skipWs input with
    | [] => none
    | c :: cs =>
      if c == openBrace then
        match skipWs cs with
        | [] => none
        | d :: ds =>
          if d == closeBrace then some (.obj [], ds)
          else
            match parseMembers fuel (d :: ds) with
            | some (kvs, rest) => some (.obj kvs, rest)
            | none => none
      else if c == '[' then
        match skipWs cs with
        | [] => none
        | d :: ds =>
          if d == ']' then some (.arr [], ds)
          else
            match parseItems fuel (d :: ds) with
            | some (xs, rest) => some (.arr xs, rest)
            | none => none
      else if c == '"' then
        match parseStringBody cs with
        | some (s, rest) => some (.str s, rest)
        | none => none
      else if c == 't' then
        match cs with
        | 'r' :: 'u' :: 'e' :: rest => some (.bool true, rest)
        | _ => none
      else if c == 'f' then
        match cs with
        | 'a' :: 'l' :: 's' :: 'e' :: rest => some (.bool false, rest)
        | _ => none
      else if c == 'n' then
        match cs with
        | 'u' :: 'l' :: 'l' :: rest => some (.null, rest)
        | _ => none
      else if c == '-' then
        match takeDigits cs with
        | ([], _) => none
        | (ds, rest) =>
          if numCont rest then none
          else some (.num (-(digitsToNat ds : Int)), rest)
      else if c.isDigit then
        match takeDigits (c :: cs) with
        | (ds, rest) =>
          if numCont rest then none
          else some (.num (digitsToNat ds), rest)
      else none

def parseMembers : Nat → List Char → Option (List (String × Json) × List Char)
  | 0, _ => none
  | fuel + 1, input =>
    match skipWs input with
    | '"' :: cs =>
      match parseStringBody cs with
      | some (k, rest) =>
        match skipWs rest with
        | ':' :: rest2 =>
          match parseVal fuel rest2 with
          | some (v, rest3) =>
            match skipWs rest3 with
            | [] => none
            | d :: rest4 =>
              if d == ',' then
                match parseMembers fuel rest4 with
                | some (kvs, rest5) => some ((k, v) :: kvs, rest5)
                | none => none
              else if d == closeBrace then some ([(k, v)], rest4)
              else none
          | none => none
        | _ => none
      | none => none
    | _ => none

def parseItems : Nat → List Char → Option (List Json × List Char)
  | 0, _ => none
  | fuel + 1, input =>
    match parseVal fuel input with
    | some (v, rest) =>
      match skipWs rest with
      | ',' :: rest2 =>
        match parseItems fuel rest2 with
        | some (xs, rest3) => some (v :: xs, rest3)
        | none => none
      | ']' :: rest2 => some ([v], rest2)
      | _ => none
    | none => none

end

/-- Model of `json.loads`: parse a whole string as a JSON value, rejecting trailing
garbage.  `none` models the `json.JSONDecodeError` path. -/
def jsonParse (s : String) : Option Json :=
  match parseVal (s.data.length + 1) s.data with
  | some (j, rest) => if (skipWs rest).isEmpty then some j else none
  | none => none

/-- Python truthiness of a JSON value (`if llm_summary:` in `run`). -/
def pyTruthy : Json → Bool
  | .null => false
  | .bool b => b
  | .num n => n != 0
  | .str s => s != ""
  | .arr xs => !xs.isEmpty
  | .obj kvs => !kvs.isEmpty

/-- Model of `dict.get(k)`: first binding of `k` (parsed objects never repeat keys in
the payloads considered here). -/
def lookupField (kvs : List (String × Json)) (k : String) : Option Json :=
  match kvs.find? (fun kv => kv.1 == k) with
  | some kv => some kv.2
  | none => none

/-! ### Filesystem model -/

/-- The on-disk state visible to the agent: the existing directories and the
existing files, each as absolute slash-separated paths.  The order of
`files` is the enumeration order of `Path.rglob`. -/
structure FS where
  dirs : List String
  files : List String
deriving Repr, DecidableEq

def dirExists (fs : FS) (d : String) : Bool := fs.dirs.contains d

def fileExists (fs : FS) (f : String) : Bool := fs.files.contains f

def mkdir (fs : FS) (d : String) : FS := { fs with dirs := d :: fs.dirs }

def writeFileFS (fs : FS) (p : String) : FS := { fs with files := p :: fs.files }

def underDir (d f : String) : Bool := strStarts f (d ++ "/")

/-- Model of `shutil.rmtree`: remove the directory and everything beneath it. -/
def rmtree (fs : FS) (d : String) : FS :=
  { dirs := fs.dirs.filter (fun x => !(x == d || underDir d x)),
    files := fs.files.filter (fun x => !underDir d x) }

def directChild (folder f : String) : Bool :=
  underDir folder f && !((f.data.drop (folder.data.length + 1)).contains '/')

/-- The glob pattern `page_*.png` applied to a file name. -/
def matchPagePng (name : String) : Bool :=
  strStarts name "page_" && strEnds name ".png"

/-- Model of `sorted(page_folder.glob("page_*.png"))` from `ExtractAgent.process_pdf`:
the direct children of `folder` whose name matches `page_*.png`, in lexical
order of the full paths.  A missing directory yields no entries. -/
def pagesIn (fs : FS) (folder : String) : List String :=
  if dirExists fs folder then
    sortLex (fs.files.filter (fun f => directChild folder f && matchPagePng (baseName f)))
  else []

/-- Model of `[str(x) for x in p.rglob("*.png")]` from `ExtractAgent.run`: every file
beneath `dir` (recursively, in enumeration order) whose name ends in
`.png`. -/
def pngFilesUnder (fs : FS) (dir : String) : List String :=
  fs.files.filter (fun f => underDir dir f && strEnds f ".png")

/-! ### Collaborator oracles -/

/-- The external collaborators and ambient effects of one orchestration run.
`vision path key` is the vision backend's reply for one prompt `key` on one
image: an exception, or an HTTP status paired with the reply text (the
decoded `response` field; the transport envelope is the collaborator's).
`probe` is `GET /api/models`; `generate` is the consolidation call
`POST /api/generate`, giving a status and the raw response body.
`convertEffect` is the on-disk effect of `convert_documents_to_images`
(an external renderer); `tmpName` is the directory `tempfile.mkdtemp`
returns. -/
structure Env where
  tmpName : String
  crawl : String → Except Unit String
  transcribe : String → Except Unit Json
  conversionDepsOk : Bool
  convertEffect : FS → FS
  vision : String → String → Except Unit (Nat × String)
  probe : Except Unit Nat
  generate : Except Unit (Nat × String)

/-! ### `ImageExtractor.extract_data` (src/Extractor/img_ext/img_ext.py) -/

/-- The per-unit result dictionary produced by `extract_data`: either the
`\x7b"error": msg\x7d` shape for a missing image, or the four-key shape in
which `ocr_text` is a string or Python `None` and the other three values are
strings. -/
inductive UnitResult where
  | notFound (msg : String)
  | fields (ocr_text : Option String) (image_description : String)
      (table_data : String) (flowchart : String)
deriving Repr, DecidableEq

/-- The special handling of the OCR reply text in `extract_data` (its input
is already `.strip()`-ped). -/
def normalizeOcr (result_text : String) : Option String :=
  if result_text == "" || upperStr result_text == "NO_TEXT" ||
      strStarts result_text "Error:" then none
  else if result_text.length < 3 then none
  else if ["none", "n/a", "null", "no text"].contains (lowerStr result_text) then none
  else some result_text

def extractFieldOcr (env : Env) (image_path : String) : Except Unit (Option String) :=
  match env.vision image_path "ocr_text" with
  | .error u => .error u
  | .ok (status, text) =>
    if status == 200 then .ok (normalizeOcr (pyStrip text))
    else .ok (some ("Error: " ++ toString status))

def extractFieldOther (env : Env) (image_path key : String) : Except Unit String :=
  match env.vision image_path key with
  | .error u => .error u
  | .ok (status, text) =>
    if status == 200 then .ok (pyStrip text)
    else .ok ("Error: " ++ toString status)

/-- Model of `ImageExtractor.extract_data`: a missing image yields the error-marked
dictionary; otherwise the four prompts run in order and a transport
exception on any of them propagates (`.error`). -/
def extractData (fs : FS) (env : Env) (image_path : String) : Except Unit UnitResult :=
  if fileExists fs image_path then
    match extractFieldOcr env image_path,
          extractFieldOther env image_path "image_description",
          extractFieldOther env image_path "table_data",
          extractFieldOther env image_path "flowchart" with
    | .ok o, .ok d, .ok t, .ok f => .ok (.fields o d t f)
    | _, _, _, _ => .error ()
  else .ok (.notFound ("Image not found: " ++ image_path))

/-! ### `ExtractAgent._agg_image_results` (src/app.py) -/

def ocrValue : UnitResult → Option String
  | .notFound _ => none
  | .fields o _ _ _ => o

structure Agg where
  pages : List UnitResult
  combined_text : Option String
  tables : List String
  descriptions : List String
  flowcharts : List String
deriving Repr, DecidableEq

/-- Model of `ExtractAgent._agg_image_results`: per-unit results are kept verbatim in
`pages`; each field is collected across units by Python truthiness
(`if r.get(key):`); `combined_text` is the `"\n\n"`-join of the collected
OCR texts, or Python `None` when none were collected. -/
def aggImageResults (results : List UnitResult) : Agg :=
  let texts := results.filterMap (fun r =>
    match ocrValue r with
    | some s => if s != "" then some s else none
    | none => none)
  { pages := results
    combined_text :=
      if texts.isEmpty then none else some (String.intercalate "\n\n" texts)
    tables := results.filterMap (fun r =>
      match r with
      | .fields _ _ td _ => if td != "" then some td else none
      | .notFound _ => none)
    descriptions := results.filterMap (fun r =>
      match r with
      | .fields _ d _ _ => if d != "" then some d else none
      | .notFound _ => none)
    flowcharts := results.filterMap (fun r =>
      match r with
      | .fields _ _ _ fc => if fc != "" then some fc else none
      | .notFound _ => none) }

/-! ### Consolidation (`_check_ollama`, `_summarize_with_llm`) -/

/-- Model of `ExtractAgent._check_ollama`: the reachability probe; `True` only on an
HTTP 200 reply, `False` on any other status or on an exception. -/
def checkOllama (env : Env) : Bool :=
  match env.probe with
  | .ok status => status == 200
  | .error _ => false

/-- Model of `ExtractAgent._summarize_with_llm`.  The prompt is built from
`aggregated`; the backend's reply is `env.generate`.  A non-200 status, a
transport exception, an unparseable response body, or a non-object body all
give Python `None`; a 200 reply whose `response` text parses as JSON gives
that value; a `response` text that does not parse is wrapped as
`\x7b"summary": text\x7d`. -/
def summarizeWithLlm (env : Env) (aggregated : Agg) : Option Json :=
  if !checkOllama env then none
  else
    match env.generate with
    | .error _ => none
    | .ok (status, body) =>
      if status == 200 then
        match jsonParse body with
        | some (.obj kvs) =>
          match (lookupField kvs "response").getD (Json.str "") with
          | .str s =>
            match jsonParse s with
            | some j => some j
            | none => some (.obj [("summary", .str s)])
          | v => some (.obj [("summary", v)])
        | some _ => none
        | none => none
      else none

/-! ### The pipelines and the orchestrator (`ExtractAgent`) -/

structure PageEntry where
  page : String
  result : UnitResult
deriving Repr, DecidableEq

structure ImgEntry where
  image : String
  result : UnitResult
deriving Repr, DecidableEq

inductive RunError where
  | notFound (path : String)
  | unsupportedType (ext : String)
  | conversionDeps
  | collaboratorExn
  | extractionExn
deriving Repr, DecidableEq

/-- The persisted output record.  Absent keys are `none`. -/
structure Output where
  source : String
  type : String
  content : Option String := none
  images : Option (List ImgEntry) := none
  pages : Option (List PageEntry) := none
  aggregated : Option Agg := none
  llm_summary : Option Json := none
  transcript : Option Json := none
deriving Repr

/-- Model of `ExtractAgent._is_url`. -/
def isUrl (s : String) : Bool := strStarts s "http://" || strStarts s "https://"

def docExts : List String := [".pdf", ".docx", ".pptx"]

def imgExts : List String := [".png", ".jpg", ".jpeg"]

def audioExts : List String := [".wav", ".mp3"]

/-- Model of `ExtractAgent.process_images`: one `extract_data` call per path, in
order; there is no try/except, so an exception propagates. -/
def processImages (fs : FS) (env : Env) : List String → Except Unit (List ImgEntry)
  | [] => .ok []
  | p :: rest =>
    match extractData fs env p with
    | .error u => .error u
    | .ok data =>
      match processImages fs env rest with
      | .error u => .error u
      | .ok tail => .ok ({ image := baseName p, result := data } :: tail)

/-- The per-page loop of `ExtractAgent.process_pdf`: one `extract_data` call
per listed page image, in order; there is no try/except, so an exception
propagates. -/
def extractPages (fs : FS) (env : Env) : List String → Except Unit (List PageEntry)
  | [] => .ok []
  | img :: rest =>
    match extractData fs env img with
    | .error u => .error u
    | .ok data =>
      match extractPages fs env rest with
      | .error u => .error u
      | .ok tail => .ok ({ page := baseName img, result := data } :: tail)

/-- Model of `images_out = tmpdir / Path(input_path).stem`. -/
def pdfImagesOut (tmpdir input_path : String) : String :=
  tmpdir ++ "/" ++ stem input_path

/-- The fallback lookup of `process_pdf`:
`Path(str(images_out.parent)) / Path(input_path).stem`. -/
def fallbackFolder (tmpdir input_path : String) : String :=
  parentDir (pdfImagesOut tmpdir input_path) ++ "/" ++ stem input_path

/-- Value of `page_folder` after the `if not page_folder.exists():` fallback in
`process_pdf`. -/
def choosePageFolder (fs : FS) (tmpdir input_path : String) : String :=
  if dirExists fs (pdfImagesOut tmpdir input_path) then pdfImagesOut tmpdir input_path
  else fallbackFolder tmpdir input_path

/-- Model of `ExtractAgent.process_pdf`: create `images_out`, check the lazily
imported conversion dependencies, run the converter, resolve the page
folder (with the one fallback), list `page_*.png` in sorted order, and
extract every page. -/
def processPdf (env : Env) (fs : FS) (input_path tmpdir : String) :
    Except RunError (List PageEntry) × FS :=
  let images_out := pdfImagesOut tmpdir input_path
  let fs1 := mkdir fs images_out
  if !env.conversionDepsOk then (.error .conversionDeps, fs1)
  else
    let fs2 := env.convertEffect fs1
    let images := pagesIn fs2 (choosePageFolder fs2 tmpdir input_path)
    match extractPages fs2 env images with
    | .error _ => (.error .extractionExn, fs2)
    | .ok entries => (.ok entries, fs2)

/-- The body of `ExtractAgent.run` inside the `try:` — classification and
dispatch, yielding the output record or the raised error, together with the
filesystem state at that point. -/
def runBody (env : Env) (fs : FS) (input_path tmpdir : String) :
    Except RunError Output × FS :=
  if isUrl input_path then
    match env.crawl input_path with
    | .error _ => (.error .collaboratorExn, fs)
    | .ok md => (.ok { source := input_path, type := "url", content := some md }, fs)
  else if dirExists fs input_path then
    match processImages fs env (pngFilesUnder fs input_path) with
    | .error _ => (.error .extractionExn, fs)
    | .ok entries =>
      (.ok { source := input_path, type := "images_dir", images := some entries }, fs)
  else if fileExists fs input_path then
    let ext := lowerStr (pathSuffix input_path)
    if docExts.contains ext then
      match processPdf env fs input_path tmpdir with
      | (.error e, fs1) => (.error e, fs1)
      | (.ok results, fs2) =>
        let aggregated := aggImageResults (results.map (fun r => r.result))
        let llm_summary := summarizeWithLlm env aggregated
        (.ok { source := input_path, type := "document", pages := some results,
               aggregated := some aggregated,
               llm_summary :=
                 match llm_summary with
                 | some v => if pyTruthy v then some v else none
                 | none => none }, fs2)
    else if imgExts.contains ext then
      match processImages fs env [input_path] with
      | .error _ => (.error .extractionExn, fs)
      | .ok entries =>
        (.ok { source := input_path, type := "image", images := some entries }, fs)
    else if audioExts.contains ext then
      match env.transcribe input_path with
      | .error _ => (.error .collaboratorExn, fs)
      | .ok t => (.ok { source := input_path, type := "audio", transcript := some t }, fs)
    else (.error (.unsupportedType ext), fs)
  else (.error (.notFound input_path), fs)

/-- Model of `ExtractAgent.run`: make the scratch directory, dispatch, write the
output file on success, and remove the scratch directory on every exit path
(the `finally:` block).  The result is the run's outcome paired with the
final filesystem state. -/
def run (env : Env) (fs0 : FS) (input_path output_path : String) :
    Except RunError Output × FS :=
  let tmpdir := env.tmpName
  let fs := mkdir fs0 tmpdir
  match runBody env fs input_path tmpdir with
  | (.ok out, fs1) => (.ok out, rmtree (writeFileFS fs1 output_path) tmpdir)
  | (.error e, fs1) => (.error e, rmtree fs1 tmpdir)


/-! ### Concrete fixtures for witnesses and counterexamples -/

/-- A document run whose consolidation backend probe raises (unreachable). -/
def envW2 : Env :=
  { tmpName := "/tmp/ea"
    crawl := fun _ => .error ()
    transcribe := fun _ => .error ()
    conversionDepsOk := true
    convertEffect := fun fs => { fs with files := "/tmp/ea/r/page_001.png" :: fs.files }
    vision := fun _ _ => .ok (200, "hello page text")
    probe := .error ()
    generate := .ok (200, "unused") }

def fsW2 : FS := { dirs := ["/docs"], files := ["/docs/r.pdf"] }

/-- A document run rendering two pages whose vision call raises on the
first page. -/
def envC3 : Env :=
  { tmpName := "/tmp/ea"
    crawl := fun _ => .error ()
    transcribe := fun _ => .error ()
    conversionDepsOk := true
    convertEffect := fun fs =>
      { fs with files := "/tmp/ea/r/page_001.png" :: "/tmp/ea/r/page_002.png" :: fs.files }
    vision := fun p _ => if p == "/tmp/ea/r/page_001.png" then .error () else .ok (200, "x")
    probe := .error ()
    generate := .error () }

def fsC3 : FS := { dirs := ["/docs"], files := ["/docs/r.pdf"] }

/-- Two page images of which the second gets only HTTP-500 replies. -/
def envW3 : Env :=
  { tmpName := "/tmp/ea"
    crawl := fun _ => .error ()
    transcribe := fun _ => .error ()
    conversionDepsOk := true
    convertEffect := fun fs => fs
    vision := fun p _ => if p == "/d/p/page_002.png" then .ok (500, "") else .ok (200, "hello there")
    probe := .error ()
    generate := .error () }

def fsW3 : FS := { dirs := ["/d/p"], files := ["/d/p/page_001.png", "/d/p/page_002.png"] }

/-- A converter whose on-disk effect removes the expected output
subdirectory, so the post-conversion existence check fails. -/
def envC4 : Env :=
  { tmpName := "/tmp/ea"
    crawl := fun _ => .error ()
    transcribe := fun _ => .error ()
    conversionDepsOk := true
    convertEffect := fun fs => { fs with dirs := fs.dirs.filter (fun d => d != "/tmp/ea/r") }
    vision := fun _ _ => .ok (200, "x")
    probe := .error ()
    generate := .error () }

def fsC4 : FS := { dirs := ["/docs"], files := ["/docs/r.pdf"] }

/-- The page folder of a 1000-page document, shown at its two highest
pages. -/
def fsC5 : FS := { dirs := ["/t/m"], files := ["/t/m/page_999.png", "/t/m/page_1000.png"] }

/-- A directory input containing one recognized image that is a `.jpg`. -/
def envC6 : Env :=
  { tmpName := "/tmp/ea"
    crawl := fun _ => .error ()
    transcribe := fun _ => .error ()
    conversionDepsOk := false
    convertEffect := fun fs => fs
    vision := fun _ _ => .error ()
    probe := .error ()
    generate := .error () }

def fsC6 : FS := { dirs := ["/pics"], files := ["/pics/a.jpg"] }

/-- A directory input holding two `.png` files (one nested) and one `.jpg`. -/
def envW6 : Env :=
  { tmpName := "/tmp/ea"
    crawl := fun _ => .error ()
    transcribe := fun _ => .error ()
    conversionDepsOk := false
    convertEffect := fun fs => fs
    vision := fun _ _ => .ok (200, "seen")
    probe := .error ()
    generate := .error () }

def fsW6 : FS :=
  { dirs := ["/pics", "/pics/sub"],
    files := ["/pics/b.png", "/pics/sub/c.png", "/pics/a.jpg"] }

/-- A crawler that succeeds, for exercising the classifier's URL case. -/
def envW7 : Env :=
  { tmpName := "/tmp/ea"
    crawl := fun _ => .ok "MD"
    transcribe := fun _ => .error ()
    conversionDepsOk := false
    convertEffect := fun fs => fs
    vision := fun _ _ => .error ()
    probe := .error ()
    generate := .error () }

def fsW7 : FS := { dirs := [], files := ["/tmp/x.xyz"] }

/-- A reachable consolidation backend whose generated reply text is the
non-JSON string `not json`. -/
def envW8 : Env :=
  { tmpName := "/tmp/ea"
    crawl := fun _ => .error ()
    transcribe := fun _ => .error ()
    conversionDepsOk := true
    convertEffect := fun fs => fs
    vision := fun _ _ => .ok (200, "NO_TEXT")
    probe := .ok 200
    generate := .ok (200, "\x7b\"response\": \"not json\"\x7d") }

def fsW8 : FS := { dirs := ["/docs"], files := ["/docs/r.pdf"] }

/-- A reachable consolidation backend whose generated reply text parses to
the empty JSON object (a falsy value). -/
def envW10 : Env :=
  { tmpName := "/tmp/ea"
    crawl := fun _ => .error ()
    transcribe := fun _ => .error ()
    conversionDepsOk := true
    convertEffect := fun fs => fs
    vision := fun _ _ => .ok (200, "NO_TEXT")
    probe := .ok 200
    generate := .ok (200, "\x7b\"response\": \"\x7b\x7d\"\x7d") }

def fsW10 : FS := { dirs := ["/docs"], files := ["/docs/r.pdf"] }

/-! ### Helper lemmas -/

theorem all_filter_self {α : Type} (p : α → Bool) (l : List α) :
    (l.filter p).all p = true := by
  induction l with
  | nil => rfl
  | cons a t ih => cases hpa : p a <;> simp [List.filter_cons, hpa, ih]

theorem not_contains_filter_rm (d : String) (l : List String) :
    (l.filter (fun x => !(x == d || underDir d x))).contains d = false := by
  induction l with
  | nil => rfl
  | cons a t ih =>
    by_cases ha : a = d
    · subst ha; simp [List.filter_cons, ih]
    · cases hu : underDir d a <;>
        simp [List.filter_cons, ha, hu, ih, Ne.symm ha]

theorem extractFieldOcr_ok (env : Env) (p : String)
    (h : ∃ r, env.vision p "ocr_text" = .ok r) :
    ∃ o, extractFieldOcr env p = .ok o := by
  obtain ⟨⟨s, t⟩, hr⟩ := h
  cases h2 : (s == 200)
  · exact ⟨some ("Error: " ++ toString s), by simp [extractFieldOcr, hr, h2]⟩
  · exact ⟨normalizeOcr (pyStrip t), by simp [extractFieldOcr, hr, h2]⟩

theorem extractFieldOther_ok (env : Env) (p k : String)
    (h : ∃ r, env.vision p k = .ok r) :
    ∃ o, extractFieldOther env p k = .ok o := by
  obtain ⟨⟨s, t⟩, hr⟩ := h
  cases h2 : (s == 200)
  · exact ⟨"Error: " ++ toString s, by simp [extractFieldOther, hr, h2]⟩
  · exact ⟨pyStrip t, by simp [extractFieldOther, hr, h2]⟩

theorem extractData_ok (fs : FS) (env : Env) (p : String)
    (h : ∀ k, ∃ r, env.vision p k = .ok r) :
    ∃ u, extractData fs env p = .ok u := by
  cases hf : fileExists fs p
  · exact ⟨.notFound ("Image not found: " ++ p), by simp [extractData, hf]⟩
  · obtain ⟨o, ho⟩ := extractFieldOcr_ok env p (h "ocr_text")
    obtain ⟨d, hd⟩ := extractFieldOther_ok env p "image_description" (h "image_description")
    obtain ⟨t, ht⟩ := extractFieldOther_ok env p "table_data" (h "table_data")
    obtain ⟨f, hfc⟩ := extractFieldOther_ok env p "flowchart" (h "flowchart")
    exact ⟨.fields o d t f, by simp [extractData, hf, ho, hd, ht, hfc]⟩

theorem extractPages_ok (fs : FS) (env : Env) (images : List String)
    (h : ∀ img ∈ images, ∀ k, ∃ r, env.vision img k = .ok r) :
    ∃ entries, extractPages fs env images = .ok entries
      ∧ entries.length = images.length
      ∧ entries.map (fun e => e.page) = images.map baseName := by
  induction images with
  | nil => exact ⟨[], rfl, rfl, rfl⟩
  | cons img rest ih =>
    obtain ⟨u, hu⟩ := extractData_ok fs env img (h img (by simp))
    obtain ⟨tail, htail, hlen, hmap⟩ := ih (fun i hi k => h i (by simp [hi]) k)
    refine ⟨{ page := baseName img, result := u } :: tail, ?_, ?_, ?_⟩
    · simp [extractPages, hu, htail]
    · simp [hlen]
    · simp [hmap]

theorem processImages_ok (fs : FS) (env : Env) (images : List String)
    (h : ∀ img ∈ images, ∀ k, ∃ r, env.vision img k = .ok r) :
    ∃ entries, processImages fs env images = .ok entries
      ∧ entries.length = images.length
      ∧ entries.map (fun e => e.image) = images.map baseName := by
  induction images with
  | nil => exact ⟨[], rfl, rfl, rfl⟩
  | cons img rest ih =>
    obtain ⟨u, hu⟩ := extractData_ok fs env img (h img (by simp))
    obtain ⟨tail, htail, hlen, hmap⟩ := ih (fun i hi k => h i (by simp [hi]) k)
    refine ⟨{ image := baseName img, result := u } :: tail, ?_, ?_, ?_⟩
    · simp [processImages, hu, htail]
    · simp [hlen]
    · simp [hmap]

theorem mem_afterLast {c : Char} {l : List Char} {x : Char}
    (hx : x ∈ afterLast c l) : x ≠ c := by
  unfold afterLast at hx
  rw [List.mem_reverse] at hx
  have := List.mem_takeWhile_imp hx
  simpa using this

theorem stem_no_slash (p : String) : ∀ x ∈ (stem p).data, x ≠ '/' := by
  intro x hx
  unfold stem at hx
  have hx2 : x ∈ (baseName p).data := List.mem_of_mem_take hx
  unfold baseName at hx2
  exact mem_afterLast hx2

theorem dropWhile_append_all {α : Type} (p : α → Bool) (l1 l2 : List α)
    (h : ∀ x ∈ l1, p x = true) :
    List.dropWhile p (l1 ++ l2) = List.dropWhile p l2 := by
  induction l1 with
  | nil => rfl
  | cons a t ih =>
    have ha : p a = true := h a (by simp)
    simp only [List.cons_append, List.dropWhile_cons, ha, if_true]
    exact ih (fun x hx => h x (by simp [hx]))

theorem parentDir_append (t s : String) (h : ∀ x ∈ s.data, x ≠ '/') :
    parentDir (t ++ "/" ++ s) = t := by
  have hdata : (t ++ "/" ++ s).data = t.data ++ '/' :: s.data := by
    simp [String.data_append]
  unfold parentDir
  rw [hdata]
  have hc : (t.data ++ '/' :: s.data).contains '/' = true :=
    List.elem_eq_true_of_mem (by simp)
  rw [hc]
  simp only [if_true]
  unfold beforeLast
  rw [List.reverse_append, List.reverse_cons, List.append_assoc]
  rw [dropWhile_append_all _ s.data.reverse _
    (by intro x hx; rw [List.mem_reverse] at hx; simpa using h x hx)]
  rw [List.singleton_append, List.dropWhile_cons]
  simp

theorem fallbackFolder_eq (tmpdir input_path : String) :
    fallbackFolder tmpdir input_path = pdfImagesOut tmpdir input_path := by
  unfold fallbackFolder pdfImagesOut
  rw [parentDir_append tmpdir (stem input_path) (stem_no_slash input_path)]

theorem filterMap_congr_mem {α β : Type} {f g : α → Option β} (l : List α)
    (h : ∀ a ∈ l, f a = g a) : l.filterMap f = l.filterMap g := by
  induction l with
  | nil => rfl
  | cons a t ih =>
    rw [List.filterMap_cons, List.filterMap_cons, h a (by simp),
      ih (fun x hx => h x (by simp [hx]))]

theorem agg_texts_eq (results : List UnitResult)
    (h : ∀ r ∈ results, ocrValue r ≠ some "") :
    (results.filterMap (fun r =>
      match ocrValue r with
      | some s => if s != "" then some s else none
      | none => none)) = results.filterMap ocrValue := by
  apply filterMap_congr_mem
  intro r hr
  cases hv : ocrValue r with
  | none => rfl
  | some s =>
    have hs : s ≠ "" := fun he => (h r hr) (by rw [hv, he])
    simp [hs]

/-- C1: after `_agg_image_results` folds an ordered sequence of per-unit
results, `combined_text` is present (non-`None`) iff at least one unit's
`ocr_text` is non-absent, and then it equals the `"\n\n"`-join of all
non-absent OCR texts in unit order.  The hypothesis rules out the value
`some ""`, which `extract_data` never produces (its OCR normalisation maps
an empty reply to `None` and its error marker is the non-empty string
`Error: <status>`). -/
theorem combined_text_spec (results : List UnitResult)
    (h : ∀ r ∈ results, ocrValue r ≠ some "") :
    ((aggImageResults results).combined_text.isSome
        ↔ ∃ r ∈ results, (ocrValue r).isSome)
    ∧ (aggImageResults results).combined_text
        = (if (results.filterMap ocrValue).isEmpty then none
           else some (String.intercalate "\n\n" (results.filterMap ocrValue))) := by
  have hts := agg_texts_eq results h
  have key : (aggImageResults results).combined_text
      = (if (results.filterMap ocrValue).isEmpty then none
         else some (String.intercalate "\n\n" (results.filterMap ocrValue))) := by
    simp only [aggImageResults, hts]
  refine ⟨?_, key⟩
  rw [key]
  cases he : (results.filterMap ocrValue).isEmpty
  · have hne : results.filterMap ocrValue ≠ [] := by
      intro hnil
      rw [hnil] at he
      simp at he
    rw [Ne, List.filterMap_eq_nil_iff] at hne
    push_neg at hne
    obtain ⟨r, hr, hrn⟩ := hne
    simp only [he, Bool.false_eq_true, if_false, Option.isSome_some, true_iff]
    exact ⟨r, hr, Option.isSome_iff_ne_none.mpr hrn⟩
  · have hall : ∀ r ∈ results, ocrValue r = none :=
      List.filterMap_eq_nil_iff.mp (List.isEmpty_iff.mp he)
    simp only [he, if_true, Option.isSome_none, Bool.false_eq_true, false_iff]
    rintro ⟨r, hr, hrs⟩
    rw [hall r hr] at hrs
    simp at hrs

/-- Witness for C1: three pages where only page 2 has OCR text `hello`
aggregate to `combined_text = "hello"`. -/
theorem combined_text_spec_witness :
    (∀ r ∈ [UnitResult.fields none "" "" "",
        UnitResult.fields (some "hello") "" "" "",
        UnitResult.fields none "" "" ""], ocrValue r ≠ some "")
    ∧ (aggImageResults [UnitResult.fields none "" "" "",
        UnitResult.fields (some "hello") "" "" "",
        UnitResult.fields none "" "" ""]).combined_text = some "hello" := by
  refine ⟨by decide, ?_⟩
  have h := combined_text_spec [UnitResult.fields none "" "" "",
    UnitResult.fields (some "hello") "" "" "",
    UnitResult.fields none "" "" ""] (by decide)
  rw [h.2]
  decide

/-- C5 (code bug): the page listing `sorted(page_folder.glob("page_*.png"))`
is lexical, so for a document with more than 999 pages it is not ascending
numeric page order: in a folder holding `page_999.png` and `page_1000.png`,
page 1000 is listed and processed before page 999. -/
theorem lexicalOrder_breaks_past_999 :
    pagesIn fsC5 "/t/m" = ["/t/m/page_1000.png", "/t/m/page_999.png"]
    ∧ isAscending ((pagesIn fsC5 "/t/m").map (fun p => pageIndex (baseName p))) = false := by
  constructor <;> rfl

/-- C9: the scratch directory `tempfile.mkdtemp` created at the start of
`run` is removed on every exit path: in the final filesystem state no
directory equals it or lies beneath it, no file lies beneath it, and it
does not exist. -/
theorem scratch_dir_removed (env : Env) (fs0 : FS) (input_path output_path : String) :
    ((run env fs0 input_path output_path).2.dirs.all
        (fun x => !(x == env.tmpName || underDir env.tmpName x))) = true
    ∧ ((run env fs0 input_path output_path).2.files.all
        (fun x => !underDir env.tmpName x)) = true
    ∧ dirExists (run env fs0 input_path output_path).2 env.tmpName = false := by
  simp only [run]
  rcases runBody env (mkdir fs0 env.tmpName) input_path env.tmpName with ⟨res, fs1⟩
  cases res with
  | ok out =>
    exact ⟨all_filter_self _ _, all_filter_self _ _, not_contains_filter_rm _ _⟩
  | error e =>
    exact ⟨all_filter_self _ _, all_filter_self _ _, not_contains_filter_rm _ _⟩

/-- C2: for a document-input run whose consolidation backend is
unreachable (`_check_ollama` returns `False`: the probe raised or replied
with a non-success status), consolidation is skipped and the run still
succeeds: the output record carries no `llm_summary` key and the output
file is written.  The conclusion does not mention the `generate` oracle,
which is therefore never consulted — no retry, no queuing. -/
theorem unreachable_backend_soft_fail (env : Env) (fs0 : FS)
    (input_path output_path : String) (entries : List PageEntry) (fs2 : FS)
    (hurl : isUrl input_path = false)
    (hdir : dirExists (mkdir fs0 env.tmpName) input_path = false)
    (hfile : fileExists (mkdir fs0 env.tmpName) input_path = true)
    (hext : lowerStr (pathSuffix input_path) ∈ docExts)
    (hpdf : processPdf env (mkdir fs0 env.tmpName) input_path env.tmpName
        = (.ok entries, fs2))
    (hprobe : checkOllama env = false)
    (houtp : underDir env.tmpName output_path = false) :
    run env fs0 input_path output_path
      = (.ok { source := input_path, type := "document", pages := some entries,
               aggregated := some (aggImageResults (entries.map (fun r => r.result))),
               llm_summary := none },
         rmtree (writeFileFS fs2 output_path) env.tmpName)
    ∧ fileExists (rmtree (writeFileFS fs2 output_path) env.tmpName) output_path = true := by
  have hsum : summarizeWithLlm env (aggImageResults (entries.map (fun r => r.result)))
      = none := by
    simp [summarizeWithLlm, hprobe]
  have hbody : runBody env (mkdir fs0 env.tmpName) input_path env.tmpName
      = (.ok { source := input_path, type := "document", pages := some entries,
               aggregated := some (aggImageResults (entries.map (fun r => r.result))),
               llm_summary := none }, fs2) := by
    simp [runBody, hurl, hdir, hfile, hext, hpdf, hsum]
  constructor
  · simp only [run, hbody]
  · simp [fileExists, rmtree, writeFileFS, List.filter_cons, houtp]

/-- Witness for C2: a concrete one-page document run with a probe that
raises; the output lacks `llm_summary` and the output file exists. -/
theorem unreachable_backend_soft_fail_witness :
    ∃ out fsF, run envW2 fsW2 "/docs/r.pdf" "/out/res.json" = (.ok out, fsF)
      ∧ out.llm_summary = none
      ∧ fileExists fsF "/out/res.json" = true := by
  have h := unreachable_backend_soft_fail envW2 fsW2 "/docs/r.pdf" "/out/res.json"
    [{ page := "page_001.png",
       result := .fields (some "hello page text") "hello page text"
         "hello page text" "hello page text" }]
    { dirs := ["/tmp/ea/r", "/tmp/ea", "/docs"],
      files := ["/tmp/ea/r/page_001.png", "/docs/r.pdf"] }
    rfl rfl rfl (by decide) rfl rfl rfl
  exact ⟨_, _, h.1, rfl, h.2⟩

/-- C7: the classifier assigns exactly one case, checking the URL prefix
before any filesystem check: a string with a recognized URL scheme is
dispatched as `url` for any filesystem state; an existing file whose
lowercased extension is outside every recognized set raises
`UnsupportedType`; a non-URL string that exists neither as directory nor
file raises `NotFound`, and then the run is independent of every
collaborator oracle (none is invoked). -/
theorem classifier_cases (env : Env) (fs0 : FS) (input_path output_path : String) :
    (isUrl input_path = true →
      ∀ md, env.crawl input_path = .ok md →
        (run env fs0 input_path output_path).1
          = .ok { source := input_path, type := "url", content := some md })
    ∧ (isUrl input_path = false →
        dirExists (mkdir fs0 env.tmpName) input_path = false →
        fileExists (mkdir fs0 env.tmpName) input_path = true →
        lowerStr (pathSuffix input_path) ∉ docExts →
        lowerStr (pathSuffix input_path) ∉ imgExts →
        lowerStr (pathSuffix input_path) ∉ audioExts →
        (run env fs0 input_path output_path).1
          = .error (.unsupportedType (lowerStr (pathSuffix input_path))))
    ∧ (isUrl input_path = false →
        dirExists (mkdir fs0 env.tmpName) input_path = false →
        fileExists (mkdir fs0 env.tmpName) input_path = false →
        (run env fs0 input_path output_path).1 = .error (.notFound input_path)
        ∧ ∀ env2 : Env, env2.tmpName = env.tmpName →
            run env2 fs0 input_path output_path = run env fs0 input_path output_path) := by
  refine ⟨?_, ?_, ?_⟩
  · intro hurl md hmd
    simp [run, runBody, hurl, hmd]
  · intro hurl hdir hfile hdoc himg haud
    simp [run, runBody, hurl, hdir, hfile, hdoc, himg, haud]
  · intro hurl hdir hfile
    constructor
    · simp [run, runBody, hurl, hdir, hfile]
    · intro env2 htmp
      simp [run, runBody, hurl, htmp, hdir, hfile]

/-- Witness for C7: `https://example.com/x` is dispatched as `url`; the
existing `/tmp/x.xyz` raises `UnsupportedType`; the nonexistent
`/no/such/file.pdf` raises `NotFound`. -/
theorem classifier_cases_witness :
    (run envW7 fsW7 "https://example.com/x" "/o.json").1
      = .ok { source := "https://example.com/x", type := "url", content := some "MD" }
    ∧ (run envW7 fsW7 "/tmp/x.xyz" "/o.json").1 = .error (.unsupportedType ".xyz")
    ∧ (run envW7 fsW7 "/no/such/file.pdf" "/o.json").1
        = .error (.notFound "/no/such/file.pdf") :=
  ⟨(classifier_cases envW7 fsW7 "https://example.com/x" "/o.json").1 rfl "MD" rfl,
   (classifier_cases envW7 fsW7 "/tmp/x.xyz" "/o.json").2.1 rfl rfl rfl (by decide)
     (by decide) (by decide),
   ((classifier_cases envW7 fsW7 "/no/such/file.pdf" "/o.json").2.2 rfl rfl rfl).1⟩

/-- Counterexample for C3: a document run that renders two page images and
whose vision call raises a transport exception on page 1 aborts the whole
run with an error — the failing page is not recorded as an error-marked
entry and no `pages` list of length 2 is produced, contrary to the claim. -/
theorem page_exception_aborts_cex :
    pagesIn (envC3.convertEffect (mkdir (mkdir fsC3 envC3.tmpName)
        (pdfImagesOut envC3.tmpName "/docs/r.pdf")))
      (pdfImagesOut envC3.tmpName "/docs/r.pdf")
      = ["/tmp/ea/r/page_001.png", "/tmp/ea/r/page_002.png"]
    ∧ envC3.vision "/tmp/ea/r/page_001.png" "ocr_text" = .error ()
    ∧ (run envC3 fsC3 "/docs/r.pdf" "/out/res.json").1 = .error RunError.extractionExn :=
  ⟨rfl, rfl, rfl⟩

/-- C3 amended: a per-page vision failure that is delivered as a reply —
a non-success HTTP status, or a missing image file — does not abort the
per-page loop: extraction returns one entry per listed page image, in page
order, and a page whose replies carry a non-success status is recorded
with the `Error: <status>` marker in every field.  (A transport exception
instead aborts the run, as the counterexample shows.) -/
theorem page_failures_recorded (fs : FS) (env : Env) (images : List String)
    (h : ∀ img ∈ images, ∀ k, ∃ r, env.vision img k = .ok r) :
    (∃ entries, extractPages fs env images = .ok entries
        ∧ entries.length = images.length
        ∧ entries.map (fun e => e.page) = images.map baseName)
    ∧ (∀ img s t, fileExists fs img = true →
        (∀ k, env.vision img k = .ok (s, t)) → (s == 200) = false →
        extractData fs env img = .ok (.fields (some ("Error: " ++ toString s))
          ("Error: " ++ toString s) ("Error: " ++ toString s) ("Error: " ++ toString s))) := by
  refine ⟨extractPages_ok fs env images h, ?_⟩
  intro img s t hfe hv hs
  simp [extractData, hfe, extractFieldOcr, extractFieldOther, hv, hs]

/-- Witness for C3: two pages, page 2 replied to with HTTP 500 only —
both pages appear in order, page 2 error-marked. -/
theorem page_failures_recorded_witness :
    (∃ entries, extractPages fsW3 envW3 ["/d/p/page_001.png", "/d/p/page_002.png"]
          = .ok entries
        ∧ entries.length = 2
        ∧ entries.map (fun e => e.page) = ["page_001.png", "page_002.png"])
    ∧ extractData fsW3 envW3 "/d/p/page_002.png"
        = .ok (.fields (some "Error: 500") "Error: 500" "Error: 500" "Error: 500") := by
  have h := page_failures_recorded fsW3 envW3 ["/d/p/page_001.png", "/d/p/page_002.png"]
    (by intro img him k
        have him2 : img ∈ ["/d/p/page_001.png", "/d/p/page_002.png"] := him
        fin_cases him2
        · exact ⟨(200, "hello there"), rfl⟩
        · exact ⟨(500, ""), rfl⟩)
  obtain ⟨⟨entries, he, hlen, hmap⟩, herr⟩ := h
  exact ⟨⟨entries, he, hlen, hmap⟩, herr "/d/p/page_002.png" 500 "" rfl (fun k => rfl) rfl⟩

/-- Counterexample for C4: when the expected conversion-output
subdirectory is absent after conversion (so the fallback — the identical
path — is absent too), the run does not fail with any
`ConversionOutputMissing`-style error: it proceeds and succeeds with an
empty page list. -/
theorem conversion_missing_no_error_cex :
    dirExists (envC4.convertEffect (mkdir (mkdir fsC4 envC4.tmpName)
        (pdfImagesOut envC4.tmpName "/docs/r.pdf")))
      (pdfImagesOut envC4.tmpName "/docs/r.pdf") = false
    ∧ (run envC4 fsC4 "/docs/r.pdf" "/out/res.json").1
        = .ok { source := "/docs/r.pdf", type := "document", pages := some [],
                aggregated := some (aggImageResults []) } :=
  ⟨rfl, rfl⟩

/-- C4 amended: exactly one fallback resolution is attempted, but it
resolves to the very path whose absence triggered it
(`images_out.parent / stem == images_out`), and when that directory is
absent after conversion the run does not fail: globbing the missing folder
yields no pages and the pipeline proceeds with an empty page list. -/
theorem conversion_missing_proceeds (env : Env) (fs0 : FS) (input_path tmpdir : String)
    (hdeps : env.conversionDepsOk = true)
    (habs : dirExists (env.convertEffect (mkdir fs0 (pdfImagesOut tmpdir input_path)))
        (pdfImagesOut tmpdir input_path) = false) :
    fallbackFolder tmpdir input_path = pdfImagesOut tmpdir input_path
    ∧ choosePageFolder (env.convertEffect (mkdir fs0 (pdfImagesOut tmpdir input_path)))
        tmpdir input_path = pdfImagesOut tmpdir input_path
    ∧ processPdf env fs0 input_path tmpdir
        = (.ok [], env.convertEffect (mkdir fs0 (pdfImagesOut tmpdir input_path))) := by
  have hfb := fallbackFolder_eq tmpdir input_path
  have hch : choosePageFolder (env.convertEffect (mkdir fs0 (pdfImagesOut tmpdir input_path)))
      tmpdir input_path = pdfImagesOut tmpdir input_path := by
    simp [choosePageFolder, habs, hfb]
  refine ⟨hfb, hch, ?_⟩
  simp [processPdf, hdeps, hch, pagesIn, habs, extractPages]

/-- Witness for C4: concrete run whose converter removes the expected
folder; the fallback is the identical path and the pipeline returns an
empty page list without error. -/
theorem conversion_missing_proceeds_witness :
    fallbackFolder "/tmp/ea" "/docs/r.pdf" = "/tmp/ea/r"
    ∧ processPdf envC4 fsC4 "/docs/r.pdf" "/tmp/ea"
        = (.ok [], envC4.convertEffect (mkdir fsC4 "/tmp/ea/r")) := by
  have h := conversion_missing_proceeds envC4 fsC4 "/docs/r.pdf" "/tmp/ea" rfl rfl
  exact ⟨h.1, h.2.2⟩

/-- Counterexample for C6: a directory whose only recognized image is a
`.jpg` produces an `images` list with 0 entries, not 1 — the directory
pipeline enumerates `*.png` only, so the claim's count over all recognized
image extensions is wrong. -/
theorem jpg_in_directory_ignored_cex :
    (fsC6.files.filter (fun f => underDir "/pics" f
        && imgExts.contains (lowerStr (pathSuffix f)))).length = 1
    ∧ (run envC6 fsC6 "/pics" "/out/r.json").1
        = .ok { source := "/pics", type := "images_dir", images := some [] } :=
  ⟨rfl, rfl⟩

/-- C6 amended: for an input resolving to an existing directory, the
`images` list has exactly one entry per `.png` file beneath it recursively
(`.jpg`/`.jpeg` files are not enumerated), in the enumeration order of the
directory walk, each keyed by its file's base name. -/
theorem dir_images_png_only (env : Env) (fs0 : FS) (input_path output_path : String)
    (hurl : isUrl input_path = false)
    (hdir : dirExists (mkdir fs0 env.tmpName) input_path = true)
    (h : ∀ img ∈ pngFilesUnder (mkdir fs0 env.tmpName) input_path, ∀ k,
        ∃ r, env.vision img k = .ok r) :
    ∃ entries, (run env fs0 input_path output_path).1
        = .ok { source := input_path, type := "images_dir", images := some entries }
      ∧ entries.length = (pngFilesUnder (mkdir fs0 env.tmpName) input_path).length
      ∧ entries.map (fun e => e.image)
          = (pngFilesUnder (mkdir fs0 env.tmpName) input_path).map baseName := by
  obtain ⟨entries, hpi, hlen, hmap⟩ := processImages_ok (mkdir fs0 env.tmpName) env
    (pngFilesUnder (mkdir fs0 env.tmpName) input_path) h
  refine ⟨entries, ?_, hlen, hmap⟩
  simp [run, runBody, hurl, hdir, hpi]

/-- Witness for C6: a directory holding `b.png`, `sub/c.png` and `a.jpg`
yields exactly the two png entries, keyed by base name. -/
theorem dir_images_png_only_witness :
    ∃ entries, (run envW6 fsW6 "/pics" "/out/r.json").1
        = .ok { source := "/pics", type := "images_dir", images := some entries }
      ∧ entries.length = 2
      ∧ entries.map (fun e => e.image) = ["b.png", "c.png"] := by
  obtain ⟨entries, h1, h2, h3⟩ := dir_images_png_only envW6 fsW6 "/pics" "/out/r.json"
    rfl rfl (fun img _ k => ⟨(200, "seen"), rfl⟩)
  exact ⟨entries, h1, h2, h3⟩

/-- C8: for a document run with a reachable backend replying 200 whose
`response` reply text `t` does not parse as JSON, the output's
`llm_summary` equals the single-key wrapper object holding `t` under
`summary` — the raw text is preserved rather than discarded. -/
theorem nonjson_reply_wrapped (env : Env) (fs0 : FS)
    (input_path output_path : String) (entries : List PageEntry) (fs2 : FS)
    (body t : String) (kvs : List (String × Json))
    (hurl : isUrl input_path = false)
    (hdir : dirExists (mkdir fs0 env.tmpName) input_path = false)
    (hfile : fileExists (mkdir fs0 env.tmpName) input_path = true)
    (hext : lowerStr (pathSuffix input_path) ∈ docExts)
    (hpdf : processPdf env (mkdir fs0 env.tmpName) input_path env.tmpName
        = (.ok entries, fs2))
    (hchk : checkOllama env = true)
    (hgen : env.generate = .ok (200, body))
    (hbody : jsonParse body = some (.obj kvs))
    (hresp : lookupField kvs "response" = some (.str t))
    (ht : jsonParse t = none) :
    ∃ out, (run env fs0 input_path output_path).1 = .ok out
      ∧ out.llm_summary = some (.obj [("summary", .str t)]) := by
  have hsum : summarizeWithLlm env (aggImageResults (entries.map (fun r => r.result)))
      = some (.obj [("summary", .str t)]) := by
    simp [summarizeWithLlm, hchk, hgen, hbody, hresp, ht]
  refine ⟨{ source := input_path, type := "document", pages := some entries,
            aggregated := some (aggImageResults (entries.map (fun r => r.result))),
            llm_summary := some (.obj [("summary", .str t)]) }, ?_, rfl⟩
  simp [run, runBody, hurl, hdir, hfile, hext, hpdf, hsum, pyTruthy]

/-- Witness for C8: the backend replies 200 with reply text `not json`;
`llm_summary` equals the wrapper object. -/
theorem nonjson_reply_wrapped_witness :
    ∃ out, (run envW8 fsW8 "/docs/r.pdf" "/out/res.json").1 = .ok out
      ∧ out.llm_summary = some (.obj [("summary", .str "not json")]) :=
  nonjson_reply_wrapped envW8 fsW8 "/docs/r.pdf" "/out/res.json" []
    { dirs := ["/tmp/ea/r", "/tmp/ea", "/docs"], files := ["/docs/r.pdf"] }
    "\x7b\"response\": \"not json\"\x7d" "not json" [("response", Json.str "not json")]
    rfl rfl rfl (by decide) rfl rfl rfl rfl rfl rfl

/-- C10 (implicit): inclusion of `llm_summary` is gated on the Python
truthiness of the consolidation result, not on its mere presence: when the
reachable backend replies 200 with a `response` text parsing to a falsy
JSON value, consolidation succeeds with that value, yet the output omits
the `llm_summary` key — indistinguishable in the output from a skipped or
failed consolidation. -/
theorem falsy_summary_omitted (env : Env) (fs0 : FS)
    (input_path output_path : String) (entries : List PageEntry) (fs2 : FS)
    (body t : String) (kvs : List (String × Json)) (v : Json)
    (hurl : isUrl input_path = false)
    (hdir : dirExists (mkdir fs0 env.tmpName) input_path = false)
    (hfile : fileExists (mkdir fs0 env.tmpName) input_path = true)
    (hext : lowerStr (pathSuffix input_path) ∈ docExts)
    (hpdf : processPdf env (mkdir fs0 env.tmpName) input_path env.tmpName
        = (.ok entries, fs2))
    (hchk : checkOllama env = true)
    (hgen : env.generate = .ok (200, body))
    (hbody : jsonParse body = some (.obj kvs))
    (hresp : lookupField kvs "response" = some (.str t))
    (ht : jsonParse t = some v)
    (hv : pyTruthy v = false) :
    summarizeWithLlm env (aggImageResults (entries.map (fun r => r.result))) = some v
    ∧ ∃ out, (run env fs0 input_path output_path).1 = .ok out
        ∧ out.llm_summary = none := by
  have hsum : summarizeWithLlm env (aggImageResults (entries.map (fun r => r.result)))
      = some v := by
    simp [summarizeWithLlm, hchk, hgen, hbody, hresp, ht]
  refine ⟨hsum, ⟨{ source := input_path, type := "document", pages := some entries,
                   aggregated := some (aggImageResults (entries.map (fun r => r.result))),
                   llm_summary := none }, ?_, rfl⟩⟩
  simp [run, runBody, hurl, hdir, hfile, hext, hpdf, hsum, hv]

/-- Witness for C10: the backend's reply text is the empty object; the
consolidation result is `some (obj [])` but `llm_summary` is omitted. -/
theorem falsy_summary_omitted_witness :
    summarizeWithLlm envW10 (aggImageResults []) = some (Json.obj [])
    ∧ ∃ out, (run envW10 fsW10 "/docs/r.pdf" "/out/res.json").1 = .ok out
        ∧ out.llm_summary = none :=
  falsy_summary_omitted envW10 fsW10 "/docs/r.pdf" "/out/res.json" []
    { dirs := ["/tmp/ea/r", "/tmp/ea", "/docs"], files := ["/docs/r.pdf"] }
    "\x7b\"response\": \"\x7b\x7d\"\x7d" "\x7b\x7d" [("response", Json.str "\x7b\x7d")]
    (Json.obj [])
    rfl rfl rfl (by decide) rfl rfl rfl rfl rfl rfl rfl
